import Mathlib

/-!
# Verification of the tg_brainai quota / task-orchestration core

Shallow embedding of the quota-governed task-orchestration subsystem of the
tg_brainai Telegram bot, together with proofs and refutations of the frozen
specification claims.

Embedded source locations:
* `src/unnamed/part_001` (supabase-handler): `getAnchoredPeriodForUser`,
  `getLimits`, `decreaseRequests`, `getRemainingRequests`, `canConsumeRequest`,
  `hasRequestsLeft` and their date helpers `formatDateUTC`, `addDaysUTC`,
  `addMonthsUTC`;
* `src/unnamed/part_005` (webhook-server): the processed-update-id
  deduplication step of `WebhookHandler.processUpdate`;
* `src/src/flows/image.ts`: the goapi polling loop and the `ongoingTasks`
  busy-flag lifecycle of `handlePhotoGeneration`;
* `src/src/handlers/flows/video.ts`: the Replicate polling loop of
  `handleVideoGeneration`.

JavaScript `Date` objects are modelled as the integer of milliseconds since
the Unix epoch (the value `Date.prototype.getTime` exposes, UTC).  The UTC
field accessors and the `Date.UTC` constructor are modelled with Howard
Hinnant's civil-calendar algorithms, which implement exactly the proleptic
Gregorian calendar mandated by ECMA-262 for `Date`, including the rollover
(NOT clamping) behaviour of out-of-range day/month components: ECMA-262
`MakeDay(y, m, d)` first normalises the month into the year by floored
division and then adds `d - 1` days to the first of the month.  All divisors
below are positive, so Lean's `Int` division `/` (`Int.ediv`) coincides with
the floored division used by ECMA-262.
-/

/-- Days-since-epoch (1970-01-01) of the civil date `(y, m, d)` with month
`m` (1-based).  Linear in `d`, hence it also implements ECMA-262 `MakeDay`'s
rollover for out-of-range days (day 31 of February yields March 2/3). -/
def daysFromCivil (y m d : Int) : Int :=
  let yy := if m ≤ 2 then y - 1 else y
  let era := yy / 400
  let yoe := yy - era * 400
  let doy := (153 * (if 2 < m then m - 3 else m + 9) + 2) / 5 + d - 1
  let doe := yoe * 365 + yoe / 4 - yoe / 100 + doy
  era * 146097 + doe - 719468

/-- Civil date `(year, month, day)` (month 1-based) of a days-since-epoch
count; the inverse of `daysFromCivil` on valid dates. -/
def civilFromDays (z : Int) : Int × Int × Int :=
  let z' := z + 719468
  let era := z' / 146097
  let doe := z' - era * 146097
  let yoe := (doe - doe / 1460 + doe / 36524 - doe / 146096) / 365
  let y := yoe + era * 400
  let doy := doe - (365 * yoe + yoe / 4 - yoe / 100)
  let mp := (5 * doy + 2) / 153
  let d := doy - (153 * mp + 2) / 5 + 1
  let m := if mp < 10 then mp + 3 else mp - 9
  (if m ≤ 2 then y + 1 else y, m, d)

/-- Year-of-era bound for the `civilFromDays` intermediate. -/
theorem civil_yoe_bounds (doe q1 q2 q3 t yoe : Int)
    (h1 : 0 ≤ doe) (h2 : doe < 146097)
    (hq1 : q1 = doe / 1460) (hq2 : q2 = doe / 36524) (hq3 : q3 = doe / 146096)
    (ht : t = doe - q1 + q2 - q3) (hyoe : yoe = t / 365) :
    0 ≤ yoe ∧ yoe ≤ 399 := by
  rcases le_or_lt doe 145996 with h | h <;> omega

/-- Day-of-year bound for the `civilFromDays` intermediate. -/
theorem civil_doy_bounds (doe q1 q2 q3 t yoe doy : Int)
    (h1 : 0 ≤ doe) (h2 : doe < 146097)
    (hq1 : q1 = doe / 1460) (hq2 : q2 = doe / 36524) (hq3 : q3 = doe / 146096)
    (ht : t = doe - q1 + q2 - q3) (hyoe : yoe = t / 365)
    (hdoy : doy = doe - (365 * yoe + yoe / 4 - yoe / 100)) :
    0 ≤ doy ∧ doy ≤ 366 := by
  have h4 : yoe / 4 = t / 1460 := by omega
  have h100 : yoe / 100 = t / 36500 := by omega
  have hs2 : q2 = 0 ∨ q2 = 1 ∨ q2 = 2 ∨ q2 = 3 ∨ q2 = 4 := by omega
  have hs3 : q3 = 0 ∨ q3 = 1 := by omega
  rcases hs2 with h2 | h2 | h2 | h2 | h2 <;> rcases hs3 with h3 | h3 <;> omega

/-- Core arithmetic fact behind `civilFromDays_correct`: with every
intermediate of `civilFromDays` named by a hypothesis, `daysFromCivil`
inverts it and the month lands in `[1, 12]`. -/
theorem daysFromCivil_inverts (z' era doe yoe doy mp d m y : Int)
    (hera : era = z' / 146097) (hdoe : doe = z' - era * 146097)
    (hyoe : yoe = (doe - doe / 1460 + doe / 36524 - doe / 146096) / 365)
    (hdoy : doy = doe - (365 * yoe + yoe / 4 - yoe / 100))
    (hmp : mp = (5 * doy + 2) / 153)
    (hd : d = doy - (153 * mp + 2) / 5 + 1)
    (hm : m = if mp < 10 then mp + 3 else mp - 9)
    (hy : y = if m ≤ 2 then yoe + era * 400 + 1 else yoe + era * 400) :
    daysFromCivil y m d = z' - 719468 ∧ 1 ≤ m ∧ m ≤ 12 := by
  have hdoeb : 0 ≤ doe ∧ doe < 146097 := by omega
  have hyoeb : 0 ≤ yoe ∧ yoe ≤ 399 :=
    civil_yoe_bounds doe (doe / 1460) (doe / 36524) (doe / 146096)
      (doe - doe / 1460 + doe / 36524 - doe / 146096) yoe
      hdoeb.1 hdoeb.2 rfl rfl rfl rfl hyoe
  have hdoyb : 0 ≤ doy ∧ doy ≤ 366 :=
    civil_doy_bounds doe (doe / 1460) (doe / 36524) (doe / 146096)
      (doe - doe / 1460 + doe / 36524 - doe / 146096) yoe doy
      hdoeb.1 hdoeb.2 rfl rfl rfl rfl hyoe hdoy
  have hmpb : 0 ≤ mp ∧ mp ≤ 11 := by omega
  clear hyoe
  unfold daysFromCivil
  rcases lt_or_le mp 10 with h10 | h10
  · rw [if_pos h10] at hm
    have hm' : ¬ (m ≤ 2) := by omega
    rw [if_neg hm'] at hy
    simp only
    rw [if_neg hm', if_pos (by omega : (2:Int) < m)]
    rw [show y / 400 = era from by omega]
    rw [show y - era * 400 = yoe from by omega]
    rw [show m - 3 = mp from by omega]
    refine ⟨by omega, by omega, by omega⟩
  · rw [if_neg (by omega : ¬ mp < 10)] at hm
    have hm' : m ≤ 2 := by omega
    rw [if_pos hm'] at hy
    simp only
    rw [if_pos hm', if_neg (by omega : ¬ (2:Int) < m)]
    rw [show (y - 1) / 400 = era from by omega]
    rw [show y - 1 - era * 400 = yoe from by omega]
    rw [show m + 9 = mp from by omega]
    refine ⟨by omega, by omega, by omega⟩

/-- `daysFromCivil` is a left inverse of `civilFromDays`, and the month
produced by `civilFromDays` is always in `[1, 12]`. -/
theorem civilFromDays_correct (z : Int) :
    daysFromCivil (civilFromDays z).1 (civilFromDays z).2.1 (civilFromDays z).2.2 = z ∧
    1 ≤ (civilFromDays z).2.1 ∧ (civilFromDays z).2.1 ≤ 12 := by
  rw [show civilFromDays z =
      (let z' := z + 719468
       let era := z' / 146097
       let doe := z' - era * 146097
       let yoe := (doe - doe / 1460 + doe / 36524 - doe / 146096) / 365
       let y := yoe + era * 400
       let doy := doe - (365 * yoe + yoe / 4 - yoe / 100)
       let mp := (5 * doy + 2) / 153
       let d := doy - (153 * mp + 2) / 5 + 1
       let m := if mp < 10 then mp + 3 else mp - 9
       (if m ≤ 2 then y + 1 else y, m, d)) from rfl]
  simp only
  have h := daysFromCivil_inverts (z + 719468) _ _ _ _ _ _ _ _
    rfl rfl rfl rfl rfl rfl rfl rfl
  refine ⟨?_, h.2.1, h.2.2⟩
  rw [h.1]
  omega

/-- Milliseconds per day, the unit conversion used throughout ECMA-262's
date algorithms. -/
def msPerDay : Int := 86400000

/-- ECMA-262 `MakeDay(y, m, d)` with 0-based month `m`: normalise the month
into the year with floored division, then add `d - 1` days to the first of
the month.  Out-of-range components roll over, they are never clamped. -/
def jsMakeDay (y m d : Int) : Int :=
  daysFromCivil (y + m / 12) (m % 12 + 1) d

/-- `Date.UTC(y, m, d)` (0-based month) as epoch milliseconds (midnight). -/
def dateUTC (y m d : Int) : Int :=
  jsMakeDay y m d * msPerDay

/-- ECMA-262 `Day(t)`: the epoch-day number containing instant `t`. -/
def epochDay (t : Int) : Int := t / msPerDay

/-- `Date.prototype.getUTCFullYear` of an epoch-millisecond instant. -/
def getUTCFullYear (t : Int) : Int := (civilFromDays (epochDay t)).1

/-- `Date.prototype.getUTCMonth` (0-based month). -/
def getUTCMonth (t : Int) : Int := (civilFromDays (epochDay t)).2.1 - 1

/-- `Date.prototype.getUTCDate` (day of month, 1-based). -/
def getUTCDate (t : Int) : Int := (civilFromDays (epochDay t)).2.2

/-- `formatDateUTC` (part_001 lines 41-46) renders a `Date` as the string
`YYYY-MM-DD` from its UTC components; we model the rendered date as the
civil triple `(year, month, day)` it displays. -/
def formatDateUTC (t : Int) : Int × Int × Int := civilFromDays (epochDay t)

/-- `addDaysUTC` (part_001 lines 82-86): truncate to the UTC date, then
`setUTCDate(getUTCDate() + days)`. -/
def addDaysUTC (t days : Int) : Int :=
  let c := dateUTC (getUTCFullYear t) (getUTCMonth t) (getUTCDate t)
  dateUTC (getUTCFullYear c) (getUTCMonth c) (getUTCDate c + days)

/-- `addMonthsUTC` (part_001 lines 88-92): truncate to the UTC date, then
`setUTCMonth(getUTCMonth() + months)` keeping the day-of-month (with
ECMA-262 rollover if the day does not exist in the target month). -/
def addMonthsUTC (t months : Int) : Int :=
  let c := dateUTC (getUTCFullYear t) (getUTCMonth t) (getUTCDate t)
  dateUTC (getUTCFullYear c) (getUTCMonth c + months) (getUTCDate c)

/-- Reconstructing a midnight `Date.UTC` value from the UTC components of an
instant yields the midnight of that instant's day. -/
theorem dateUTC_components (t : Int) :
    dateUTC (getUTCFullYear t) (getUTCMonth t) (getUTCDate t) = epochDay t * msPerDay := by
  have h := civilFromDays_correct (epochDay t)
  unfold dateUTC jsMakeDay getUTCFullYear getUTCMonth getUTCDate
  have hm0 : ((civilFromDays (epochDay t)).2.1 - 1) / 12 = 0 := by omega
  have hm1 : ((civilFromDays (epochDay t)).2.1 - 1) % 12 =
      (civilFromDays (epochDay t)).2.1 - 1 := by omega
  rw [hm0, hm1]
  have : (civilFromDays (epochDay t)).2.1 - 1 + 1 = (civilFromDays (epochDay t)).2.1 := by
    omega
  rw [add_zero, this, h.1]

/-- `daysFromCivil` is linear in the day component. -/
theorem daysFromCivil_linear (y m d n : Int) :
    daysFromCivil y m (d + n) = daysFromCivil y m d + n := by
  unfold daysFromCivil
  simp only
  rcases le_or_lt m 2 with h | h
  · rw [if_pos h, if_neg (by omega : ¬ (2:Int) < m)]
    omega
  · rw [if_neg (by omega : ¬ m ≤ 2), if_pos h]
    omega

/-- `addDaysUTC t n` is exactly "midnight of `t`'s day, plus `n` days". -/
theorem addDaysUTC_eq (t n : Int) :
    addDaysUTC t n = (epochDay t + n) * msPerDay := by
  have h := civilFromDays_correct (epochDay t)
  have h1 : epochDay (epochDay t * msPerDay) = epochDay t := by
    unfold epochDay msPerDay
    omega
  have hm0 : ((civilFromDays (epochDay t)).2.1 - 1) / 12 = 0 := by omega
  have hm1 : ((civilFromDays (epochDay t)).2.1 - 1) % 12 =
      (civilFromDays (epochDay t)).2.1 - 1 := by omega
  have hmm : (civilFromDays (epochDay t)).2.1 - 1 + 1 = (civilFromDays (epochDay t)).2.1 := by
    omega
  unfold addDaysUTC dateUTC jsMakeDay getUTCFullYear getUTCMonth getUTCDate
  simp only [hm0, hm1, add_zero, hmm, h.1, h1]
  rw [daysFromCivil_linear (civilFromDays (epochDay t)).1
    (civilFromDays (epochDay t)).2.1 (civilFromDays (epochDay t)).2.2 n, h.1]

/-- `setUTCDate` on a `Date`: rebuild from the instant's UTC year/month with
the given day-of-month (ECMA-262 rollover applies), keeping time-of-day. -/
def setUTCDate (t d : Int) : Int :=
  dateUTC (getUTCFullYear t) (getUTCMonth t) d + t % msPerDay

/-- The free-tier advancing loop of `getAnchoredPeriodForUser`
(part_001 lines 121-123): `while (addDaysUTC(periodStart, 7) <= now)
periodStart = addDaysUTC(periodStart, 7)`. -/
def freePeriodStart (now periodStart : Int) : Int :=
  if h : addDaysUTC periodStart 7 ≤ now then
    freePeriodStart now (addDaysUTC periodStart 7)
  else periodStart
termination_by (now - periodStart).toNat
decreasing_by
  have he := addDaysUTC_eq periodStart 7
  unfold epochDay msPerDay at he
  omega

/-- The fields of a `gpt_tg_users` row that `getAnchoredPeriodForUser`
consults; timestamps are epoch milliseconds, `none` models SQL NULL /
absent fields. -/
structure DbUserPeriod where
  is_premium : Bool
  premium_started_at : Option Int
  created_at : Option Int
  free_period_start : Option Int

/-- `getAnchoredPeriodForUser` (part_001 lines 94-126), with the source's
`const now = new Date()` passed as the `now` parameter.  Returns the
`(start, end)` pair of epoch-millisecond midnights whose `formatDateUTC`
renderings the source returns.

Premium branch: `periodStart = new Date(Date.UTC(now.getUTCFullYear(),
now.getUTCMonth(), anchor.getUTCDate()))`; if `periodStart > now` rebuild
with `now.getUTCMonth() - 1`; `end = addMonthsUTC(periodStart, 1)` then
`end.setUTCDate(end.getUTCDate() - 1)`.

Free branch: truncate the anchor to its UTC date, advance by 7-day steps
while `start + 7d <= now`, and return `end = addDaysUTC(start, 6)`. -/
def getAnchoredPeriodForUser (now : Int) (user : DbUserPeriod) : Int × Int :=
  if user.is_premium then
    let anchor := user.premium_started_at.getD (user.created_at.getD now)
    let candidate := dateUTC (getUTCFullYear now) (getUTCMonth now) (getUTCDate anchor)
    let periodStart :=
      if now < candidate then
        dateUTC (getUTCFullYear now) (getUTCMonth now - 1) (getUTCDate anchor)
      else candidate
    let e := addMonthsUTC periodStart 1
    (periodStart, setUTCDate e (getUTCDate e - 1))
  else
    let anchor := user.free_period_start.getD (user.created_at.getD now)
    let ps0 := dateUTC (getUTCFullYear anchor) (getUTCMonth anchor) (getUTCDate anchor)
    let ps := freePeriodStart now ps0
    (ps, addDaysUTC ps 6)

/-- `dateUTC` always produces a midnight instant. -/
theorem dateUTC_midnight (y m d : Int) : dateUTC y m d % msPerDay = 0 := by
  unfold dateUTC msPerDay
  omega

/-- The free-period loop preserves midnight instants. -/
theorem freePeriodStart_midnight (now ps : Int) (hmid : ps % msPerDay = 0) :
    freePeriodStart now ps % msPerDay = 0 := by
  suffices h : ∀ k : Nat, ∀ q : Int, (now - q).toNat = k → q % msPerDay = 0 →
      freePeriodStart now q % msPerDay = 0 by
    exact h (now - ps).toNat ps rfl hmid
  intro k
  induction k using Nat.strong_induction_on with
  | _ k ih =>
    intro q hk hq
    rw [freePeriodStart]
    by_cases hcond : addDaysUTC q 7 ≤ now
    · rw [dif_pos hcond]
      have he := addDaysUTC_eq q 7
      refine ih (now - addDaysUTC q 7).toNat ?_ _ rfl ?_
      · unfold epochDay msPerDay at he
        unfold msPerDay at hq
        omega
      · rw [he]
        unfold msPerDay
        omega
    · rw [dif_neg hcond]
      exact hq

/-- **C8.** For every free-tier user and every `now`, the billing period
returned by `getAnchoredPeriodForUser` satisfies `end = start + 6 days`
exactly, and `start` is obtained by truncating the anchor
(`free_period_start ?? created_at ?? now`) to a UTC date and repeatedly
adding 7 days while `start + 7 days <= now`. -/
theorem free_period_six_days (now : Int) (user : DbUserPeriod)
    (h : user.is_premium = false) :
    (getAnchoredPeriodForUser now user).2 =
      (getAnchoredPeriodForUser now user).1 + 6 * msPerDay ∧
    (getAnchoredPeriodForUser now user).1 =
      freePeriodStart now
        (dateUTC (getUTCFullYear (user.free_period_start.getD (user.created_at.getD now)))
          (getUTCMonth (user.free_period_start.getD (user.created_at.getD now)))
          (getUTCDate (user.free_period_start.getD (user.created_at.getD now)))) := by
  unfold getAnchoredPeriodForUser
  split
  · rename_i hp
    rw [h] at hp
    cases hp
  · simp only
    refine ⟨?_, by trivial⟩
    have hmid :=
      freePeriodStart_midnight now
        (dateUTC (getUTCFullYear (user.free_period_start.getD (user.created_at.getD now)))
          (getUTCMonth (user.free_period_start.getD (user.created_at.getD now)))
          (getUTCDate (user.free_period_start.getD (user.created_at.getD now))))
        (dateUTC_midnight _ _ _)
    have he :=
      addDaysUTC_eq
        (freePeriodStart now
          (dateUTC (getUTCFullYear (user.free_period_start.getD (user.created_at.getD now)))
            (getUTCMonth (user.free_period_start.getD (user.created_at.getD now)))
            (getUTCDate (user.free_period_start.getD (user.created_at.getD now))))) 6
    unfold epochDay msPerDay at he
    unfold msPerDay at hmid ⊢
    omega

/-- Witness for `free_period_six_days`: a concrete free-tier user
(signed up 2024-01-03) and a concrete `now`. -/
def c8User : DbUserPeriod :=
  { is_premium := false
    premium_started_at := none
    created_at := some (dateUTC 2024 0 3)
    free_period_start := some (dateUTC 2024 0 3) }

theorem free_period_six_days_witness :
    c8User.is_premium = false ∧
    ((getAnchoredPeriodForUser (dateUTC 2024 0 5) c8User).2 =
        (getAnchoredPeriodForUser (dateUTC 2024 0 5) c8User).1 + 6 * msPerDay ∧
      (getAnchoredPeriodForUser (dateUTC 2024 0 5) c8User).1 =
        freePeriodStart (dateUTC 2024 0 5)
          (dateUTC
            (getUTCFullYear (c8User.free_period_start.getD
              (c8User.created_at.getD (dateUTC 2024 0 5))))
            (getUTCMonth (c8User.free_period_start.getD
              (c8User.created_at.getD (dateUTC 2024 0 5))))
            (getUTCDate (c8User.free_period_start.getD
              (c8User.created_at.getD (dateUTC 2024 0 5)))))) := by
  refine ⟨rfl, ?_⟩
  exact free_period_six_days (dateUTC 2024 0 5) c8User rfl

/-- Premium user who activated premium on 2024-01-31T10:00:00Z: the anchor
day-of-month is 31. -/
def c2User : DbUserPeriod :=
  { is_premium := true
    premium_started_at := some (dateUTC 2024 0 31 + 36000000)
    created_at := some (dateUTC 2023 11 15)
    free_period_start := none }

set_option maxRecDepth 40000

/-- **C2, refuted (code bug).**  `getAnchoredPeriodForUser` never clamps an
anchor day-of-month to the target month's last day: `Date.UTC` rolls the
excess days into the next month.  With anchor day 31:

* at `now = 2024-03-01` the code computes `Date.UTC(2024, 1, 31)`
  (February 31), which rolls over to start `2024-03-02` — a period start
  AFTER `now`, not February's last day `2024-02-29` as the claim requires;
* at `now = 2024-02-15` (the spec's own Scenario B) the start is
  `2024-01-31` but the period end is `2024-03-01`, not `2024-02-29`:
  `addMonthsUTC` builds February 31, rolls to March 2, and one day back is
  March 1. -/
theorem premium_anchor_rolls_over :
    formatDateUTC (getAnchoredPeriodForUser (dateUTC 2024 2 1) c2User).1 = (2024, 3, 2) ∧
    dateUTC 2024 2 1 < (getAnchoredPeriodForUser (dateUTC 2024 2 1) c2User).1 ∧
    formatDateUTC (getAnchoredPeriodForUser (dateUTC 2024 1 15) c2User).1 = (2024, 1, 31) ∧
    formatDateUTC (getAnchoredPeriodForUser (dateUTC 2024 1 15) c2User).2 = (2024, 3, 1) := by
  decide

/-!
## Quota store (part_001: `getLimits`, `decreaseRequests`,
`getRemainingRequests`, `canConsumeRequest`, `hasRequestsLeft`)

The Supabase I/O of `findUser` and `getOrCreateCurrentQuotaRow` is modelled
by a `QuotaEnv` record holding the two fetch results: `none` models the
source's `null` returns (user missing, or any storage failure, which the
source logs and converts to `null`).  The `update` writing the new counter
back is modelled as succeeding — its result row is returned alongside the
remaining count the source returns; a failing update (which the source also
converts to `null`) is outside the claims, which concern the returned
values. -/

/-- The `RequestType` union of the source (`src/types`). -/
inductive RequestType
  | text_req_left
  | image_req_left
  | video_req_left
deriving DecidableEq

/-- One tier's `{text, image, video}` limits triple. -/
structure Limits where
  text : Int
  image : Int
  video : Int
deriving DecidableEq

/-- The six env-var-injected limits (part_001 lines 19-26). -/
structure QuotaConfig where
  defaultLimits : Limits
  premiumLimits : Limits
deriving DecidableEq

/-- The source's fallback values: `DEFAULT_* = 100/10/5`,
`PREMIUM_* = 1000/100/50`. -/
def sourceDefaultConfig : QuotaConfig :=
  { defaultLimits := { text := 100, image := 10, video := 5 }
    premiumLimits := { text := 1000, image := 100, video := 50 } }

/-- `getLimits` (part_001 lines 59-72). -/
def getLimits (cfg : QuotaConfig) (isPremium : Bool) : Limits :=
  if isPremium then cfg.premiumLimits else cfg.defaultLimits

/-- The `maxForType` selection of `decreaseRequests` / `getRemainingRequests`
(part_001 lines 327-332 and 360-365). -/
def limitFor (l : Limits) (rt : RequestType) : Int :=
  match rt with
  | .image_req_left => l.image
  | .video_req_left => l.video
  | .text_req_left => l.text

/-- The `{text,image,video}_used` counters of a `user_quotas` row. -/
structure QuotaRow where
  text_used : Int
  image_used : Int
  video_used : Int
deriving DecidableEq

/-- Reading the column chosen by `mapRequestTypeToColumn`
(part_001 lines 74-80). -/
def usedFor (row : QuotaRow) (rt : RequestType) : Int :=
  match rt with
  | .image_req_left => row.image_used
  | .video_req_left => row.video_used
  | .text_req_left => row.text_used

/-- Writing the column chosen by `mapRequestTypeToColumn`
(the `{ [column]: newUsed }` update of part_001 lines 316-318). -/
def setUsed (row : QuotaRow) (rt : RequestType) (v : Int) : QuotaRow :=
  match rt with
  | .image_req_left => { row with image_used := v }
  | .video_req_left => { row with video_used := v }
  | .text_req_left => { row with text_used := v }

/-- The fields of the user row that the quota operations consult. -/
structure DbUserQuota where
  is_premium : Bool
deriving DecidableEq

/-- Fetch results backing one quota operation: `user` is `findUser`'s
result, `quotaRow` is `getOrCreateCurrentQuotaRow`'s result for the user's
current period (`none` on storage failure). -/
structure QuotaEnv where
  user : Option DbUserQuota
  quotaRow : Option QuotaRow
deriving DecidableEq

/-- `getRemainingRequests` (part_001 lines 344-371): resolve user and
current-period row, then `max(0, maxForType - used)`; any resolution failure
yields `null`. -/
def getRemainingRequests (cfg : QuotaConfig) (env : QuotaEnv)
    (rt : RequestType) : Option Int :=
  match env.user with
  | none => none
  | some user =>
    match env.quotaRow with
    | none => none
    | some row =>
      some (max 0 (limitFor (getLimits cfg user.is_premium) rt - usedFor row rt))

/-- `decreaseRequests` (part_001 lines 301-339): resolve user and row,
`newUsed = max(0, used + amount)`, write it back, and return
`max(0, maxForType - newUsed)`.  The returned pair carries the remaining
count the source returns and the updated row the source persists. -/
def decreaseRequests (cfg : QuotaConfig) (env : QuotaEnv)
    (rt : RequestType) (amount : Int) : Option (Int × QuotaRow) :=
  match env.user with
  | none => none
  | some user =>
    match env.quotaRow with
    | none => none
    | some row =>
      let newUsed := max 0 (usedFor row rt + amount)
      some (max 0 (limitFor (getLimits cfg user.is_premium) rt - newUsed),
            setUsed row rt newUsed)

/-- `canConsumeRequest` (part_001 lines 376-384): `remaining >= amount`,
with a `null` resolution treated as `false`. -/
def canConsumeRequest (cfg : QuotaConfig) (env : QuotaEnv)
    (rt : RequestType) (amount : Int) : Bool :=
  match getRemainingRequests cfg env rt with
  | none => false
  | some remaining => amount ≤ remaining

/-- `hasRequestsLeft` (part_001 lines 389-401): a synchronous check that
compares only the configured limit for the user's tier against zero — it
never reads the usage counters. -/
def hasRequestsLeft (cfg : QuotaConfig) (user : Option DbUserQuota)
    (rt : RequestType) : Bool :=
  match user with
  | none => false
  | some u => 0 < limitFor (getLimits cfg u.is_premium) rt

/-- The pre-submission quota check of `handleVideoGeneration`
(video.ts lines 21-22): `hasRequestsLeft(await findUser(userId),
"video_req_left")`, with the fetched row of the environment ignored. -/
def videoFlowCanUse (cfg : QuotaConfig) (env : QuotaEnv) : Bool :=
  hasRequestsLeft cfg env.user RequestType.video_req_left

/-- **C6.** Within one billing period (user and row resolved, counters
non-negative), `decreaseRequests` succeeds, returns exactly
`max 0 (remaining - n)` for the prior `remaining`, the remaining computed
from the updated row equals that returned value, and remaining never
increases.  Concretely, a free user with text limit 100 and 97 used has
`remaining = 3`. -/
theorem consume_decrements_remaining (cfg : QuotaConfig) (env : QuotaEnv)
    (user : DbUserQuota) (row : QuotaRow) (rt : RequestType) (n : Int)
    (hu : env.user = some user) (hr : env.quotaRow = some row)
    (hused : 0 ≤ usedFor row rt) (hn : 0 < n) :
    (∃ r r' row2,
      getRemainingRequests cfg env rt = some r ∧
      decreaseRequests cfg env rt n = some (r', row2) ∧
      r' = max 0 (r - n) ∧
      getRemainingRequests cfg { env with quotaRow := some row2 } rt = some r' ∧
      r' ≤ r) ∧
    getRemainingRequests sourceDefaultConfig
      { user := some { is_premium := false }
        quotaRow := some { text_used := 97, image_used := 0, video_used := 0 } }
      RequestType.text_req_left = some 3 := by
  constructor
  · unfold getRemainingRequests decreaseRequests
    rw [hu, hr]
    simp only
    refine ⟨_, _, _, rfl, rfl, ?_, ?_, ?_⟩
    · have h1 : max 0 (usedFor row rt + n) = usedFor row rt + n := by omega
      rw [h1]
      omega
    · have h2 : usedFor (setUsed row rt (max 0 (usedFor row rt + n))) rt =
          max 0 (usedFor row rt + n) := by
        cases rt <;> rfl
      rw [h2]
    · have h1 : max 0 (usedFor row rt + n) = usedFor row rt + n := by omega
      rw [h1]
      omega
  · decide

theorem consume_decrements_remaining_witness :
    ({ user := some { is_premium := false }
       quotaRow := some { text_used := 97, image_used := 0, video_used := 0 } } :
        QuotaEnv).user = some { is_premium := false } ∧
    (0:Int) ≤ usedFor { text_used := 97, image_used := 0, video_used := 0 }
      RequestType.text_req_left ∧
    (0:Int) < 5 ∧
    ((∃ r r' row2,
      getRemainingRequests sourceDefaultConfig
        { user := some { is_premium := false }
          quotaRow := some { text_used := 97, image_used := 0, video_used := 0 } }
        RequestType.text_req_left = some r ∧
      decreaseRequests sourceDefaultConfig
        { user := some { is_premium := false }
          quotaRow := some { text_used := 97, image_used := 0, video_used := 0 } }
        RequestType.text_req_left 5 = some (r', row2) ∧
      r' = max 0 (r - 5) ∧
      getRemainingRequests sourceDefaultConfig
        { user := some { is_premium := false }, quotaRow := some row2 }
        RequestType.text_req_left = some r' ∧
      r' ≤ r) ∧
    getRemainingRequests sourceDefaultConfig
      { user := some { is_premium := false }
        quotaRow := some { text_used := 97, image_used := 0, video_used := 0 } }
      RequestType.text_req_left = some 3) := by
  refine ⟨rfl, by decide, by decide, ?_⟩
  exact consume_decrements_remaining sourceDefaultConfig
    { user := some { is_premium := false }
      quotaRow := some { text_used := 97, image_used := 0, video_used := 0 } }
    { is_premium := false } { text_used := 97, image_used := 0, video_used := 0 }
    RequestType.text_req_left 5 rfl rfl (by decide) (by decide)

/-- **C7.** `canConsumeRequest` returns `true` exactly when the resolved
remaining quota is at least the requested amount, and returns `false`
whenever resolution fails (user not found, or the row store unavailable):
it fails closed. -/
theorem canConsume_fail_closed (cfg : QuotaConfig) (env : QuotaEnv)
    (rt : RequestType) (amount : Int) :
    (canConsumeRequest cfg env rt amount = true ↔
      ∃ r, getRemainingRequests cfg env rt = some r ∧ amount ≤ r) ∧
    (env.user = none ∨ env.quotaRow = none →
      canConsumeRequest cfg env rt amount = false) := by
  constructor
  · unfold canConsumeRequest
    cases hrem : getRemainingRequests cfg env rt with
    | none => simp
    | some r =>
      simp only [decide_eq_true_eq]
      constructor
      · intro hle
        exact ⟨r, rfl, hle⟩
      · rintro ⟨r2, hr2, hle⟩
        cases hr2
        exact hle
  · intro hfail
    unfold canConsumeRequest getRemainingRequests
    rcases hfail with hnone | hnone <;> rw [hnone] <;> cases env.user <;> rfl

theorem canConsume_fail_closed_witness :
    canConsumeRequest sourceDefaultConfig
      { user := none, quotaRow := none } RequestType.text_req_left 1 = false :=
  (canConsume_fail_closed sourceDefaultConfig
    { user := none, quotaRow := none } RequestType.text_req_left 1).2 (Or.inl rfl)

/-- **C10.** For every non-null user, `hasRequestsLeft` is true whenever the
configured limit for the request type (per the user's premium tier) is
positive — the function never reads usage counters — so the video flow's
pre-submission check `videoFlowCanUse` admits the request for every
quota-row state whenever the video limit is positive. -/
theorem hasRequestsLeft_ignores_usage (cfg : QuotaConfig) (env : QuotaEnv)
    (user : DbUserQuota)
    (hu : env.user = some user)
    (hpos : 0 < (getLimits cfg user.is_premium).video) :
    videoFlowCanUse cfg env = true ∧
    (∀ rt : RequestType, 0 < limitFor (getLimits cfg user.is_premium) rt →
      hasRequestsLeft cfg env.user rt = true) := by
  constructor
  · unfold videoFlowCanUse hasRequestsLeft
    rw [hu]
    simp only [decide_eq_true_eq]
    exact hpos
  · intro rt hrt
    unfold hasRequestsLeft
    rw [hu]
    simp only [decide_eq_true_eq]
    exact hrt

theorem hasRequestsLeft_ignores_usage_witness :
    ({ user := some { is_premium := false }
       quotaRow := some { text_used := 0, image_used := 0, video_used := 999999 } } :
        QuotaEnv).user = some { is_premium := false } ∧
    (0:Int) < (getLimits sourceDefaultConfig false).video ∧
    (videoFlowCanUse sourceDefaultConfig
        { user := some { is_premium := false }
          quotaRow := some { text_used := 0, image_used := 0, video_used := 999999 } } = true ∧
      (∀ rt : RequestType,
        0 < limitFor (getLimits sourceDefaultConfig false) rt →
        hasRequestsLeft sourceDefaultConfig
          ({ user := some { is_premium := false }
             quotaRow := some { text_used := 0, image_used := 0, video_used := 999999 } } :
              QuotaEnv).user rt = true)) := by
  refine ⟨rfl, by decide, ?_⟩
  exact hasRequestsLeft_ignores_usage sourceDefaultConfig
    { user := some { is_premium := false }
      quotaRow := some { text_used := 0, image_used := 0, video_used := 999999 } }
    { is_premium := false } rfl (by decide)


/-!
## Update deduplication (part_005: `WebhookHandler.processUpdate`,
lines 185-201)

A JavaScript `Set` iterates in insertion order, so `processedUpdateIds` is
modelled as a duplicate-free list in insertion order.  The model covers the
dedup prefix of `processUpdate`: the `has` check that short-circuits
duplicates, the `add`, and the trim that converts the set to an array and
keeps `slice(-MAX_PROCESSED_IDS)` when the size exceeds the bound.
-/

/-- `MAX_PROCESSED_IDS` (part_005 line 35). -/
def MAX_PROCESSED_IDS : Nat := 1000

/-- One `processUpdate` call's effect on `processedUpdateIds`: returns
whether the update is fresh (and hence processed) together with the new
recorded set. -/
def processUpdateDedup (processed : List Nat) (updateId : Nat) :
    Bool × List Nat :=
  if updateId ∈ processed then (false, processed)
  else
    let added := processed ++ [updateId]
    if MAX_PROCESSED_IDS < added.length then
      (true, added.drop (added.length - MAX_PROCESSED_IDS))
    else (true, added)

/-- Folding a stream of update ids through the dedup step, starting from a
given recorded set. -/
def processFrom (s : List Nat) (ids : List Nat) : List Nat :=
  ids.foldl (fun t i => (processUpdateDedup t i).2) s

/-- The recorded set after a fresh `WebhookHandler` processes `ids`. -/
def processAll (ids : List Nat) : List Nat := processFrom [] ids

/-- Invariant of the dedup fold: if the recorded set is the most recent
`MAX_PROCESSED_IDS`-suffix of the distinct ids seen so far, it stays so. -/
theorem processFrom_suffix : ∀ (rest P : List Nat), (P ++ rest).Nodup →
    processFrom (P.drop (P.length - MAX_PROCESSED_IDS)) rest
      = (P ++ rest).drop ((P ++ rest).length - MAX_PROCESSED_IDS) := by
  intro rest
  induction rest with
  | nil =>
    intro P _
    simp [processFrom]
  | cons i rest ih =>
    intro P hnd
    have hiP : i ∉ P := by
      rcases List.nodup_append.mp hnd with ⟨_, _, hdisj⟩
      intro hin
      exact hdisj hin (List.mem_cons_self i rest)
    have hstep : (processUpdateDedup (P.drop (P.length - MAX_PROCESSED_IDS)) i).2
        = (P ++ [i]).drop ((P ++ [i]).length - MAX_PROCESSED_IDS) := by
      have hiDrop : i ∉ P.drop (P.length - 1000) := fun hmem =>
        hiP (List.mem_of_mem_drop hmem)
      unfold processUpdateDedup
      simp only [MAX_PROCESSED_IDS]
      rw [if_neg hiDrop]
      rcases le_or_lt P.length 1000 with hlen | hlen
      · have hz : P.length - 1000 = 0 := by omega
        rw [hz, List.drop_zero]
        rcases lt_or_le 1000 (P.length + 1) with hc | hc
        · rw [if_pos (by simp only [List.length_append, List.length_cons,
            List.length_nil]; omega)]
        · rw [if_neg (by simp only [List.length_append, List.length_cons,
            List.length_nil]; omega)]
          have hz2 : (P ++ [i]).length - 1000 = 0 := by
            simp only [List.length_append, List.length_cons, List.length_nil]
            omega
          rw [hz2, List.drop_zero]
      · have hdroplen : (P.drop (P.length - 1000)).length = 1000 := by
          rw [List.length_drop]
          omega
        rw [if_pos (by simp only [List.length_append, List.length_cons,
          List.length_nil, hdroplen]; omega)]
        have h1 : (P.drop (P.length - 1000) ++ [i]).length - 1000 = 1 := by
          simp only [List.length_append, List.length_cons, List.length_nil,
            hdroplen]
        rw [h1]
        rw [List.drop_append_of_le_length (by omega)]
        rw [List.drop_drop]
        have h2 : (P ++ [i]).length - 1000 = 1 + (P.length - 1000) := by
          simp only [List.length_append, List.length_cons, List.length_nil]
          omega
        rw [h2]
        rw [List.drop_append_of_le_length (by omega)]
        simp [Nat.add_comm]
    show processFrom ((processUpdateDedup (P.drop (P.length - MAX_PROCESSED_IDS)) i).2)
        rest = _
    rw [hstep]
    have hassoc : P ++ i :: rest = (P ++ [i]) ++ rest := by simp
    rw [hassoc] at hnd ⊢
    exact ih (P ++ [i]) hnd

/-- **C5.** Processing any duplicate-free stream of update ids from a fresh
handler leaves exactly the most recently inserted `MAX_PROCESSED_IDS` ids
recorded, in insertion order (so eviction is oldest-first); the recorded
set's size never exceeds the capacity; and a single step reports an id as
fresh exactly when it is not currently recorded (hence exactly once per
distinct id until the id is evicted). -/
theorem dedup_fifo_capacity (ids : List Nat) (hnd : ids.Nodup) :
    processAll ids = ids.drop (ids.length - MAX_PROCESSED_IDS) ∧
    (processAll ids).length ≤ MAX_PROCESSED_IDS ∧
    (∀ (s : List Nat) (i : Nat), (processUpdateDedup s i).1 = true ↔ i ∉ s) := by
  have hmain : processAll ids = ids.drop (ids.length - MAX_PROCESSED_IDS) := by
    have h := processFrom_suffix ids [] (by simpa using hnd)
    simpa [processAll] using h
  refine ⟨hmain, ?_, ?_⟩
  · rw [hmain, List.length_drop]
    simp only [MAX_PROCESSED_IDS]
    omega
  · intro s i
    unfold processUpdateDedup
    by_cases hmem : i ∈ s
    · rw [if_pos hmem]
      simp [hmem]
    · rw [if_neg hmem]
      rcases lt_or_le MAX_PROCESSED_IDS (s ++ [i]).length with hc | hc
      · rw [if_pos hc]
        simp [hmem]
      · rw [if_neg (not_lt.mpr hc)]
        simp [hmem]

theorem dedup_fifo_capacity_witness :
    ([5, 6, 7] : List Nat).Nodup ∧
    (processAll [5, 6, 7] = [5, 6, 7].drop ([5, 6, 7].length - MAX_PROCESSED_IDS) ∧
      (processAll [5, 6, 7]).length ≤ MAX_PROCESSED_IDS ∧
      (∀ (s : List Nat) (i : Nat), (processUpdateDedup s i).1 = true ↔ i ∉ s)) := by
  refine ⟨by decide, ?_⟩
  exact dedup_fifo_capacity [5, 6, 7] (by decide)

/-!
## Polling loops

`handlePhotoGeneration` (image.ts lines 112-256) and
`handleVideoGeneration` (video.ts lines 55-143) each drive a remote job
with a `setInterval` callback.  One callback invocation ("tick") is
modelled as a state transition on the loop's mutable closure variables
(`attempts`, `lastStatus`, the video loop's `transientErrors`), plus the
implicit timer-active flag (cleared by `clearInterval`) and the delivered
terminal outcome.  The input of a tick is the settled result of the
status-check call (`getTaskStatus` / `getPredictionStatus`).  Once
`clearInterval` has run no further callback fires, which the model renders
by making ticks on an inactive timer the identity.  The chat-API calls
(`safeEditMessageText`, `sendPhoto`, ...) are assumed not to throw; the
loops' catch-all handlers are therefore not exercised.
-/

/-- Settled result of `getTaskStatus` as the image loop inspects it:
`failure` is `statusResult.success === false`; `nodata` is a success whose
`data?.data` is missing (the loop then just returns from the tick);
`status` carries `taskData.status`, `taskData.output?.progress ?? 0` and
`taskData.output.image_url`. -/
inductive GoapiCheck
  | failure
  | nodata
  | status (s : String) (progress : Int) (image_url : Option String)
deriving DecidableEq

/-- Terminal outcome delivered by the image loop. -/
inductive ImgOutcome
  | statusCheckError
  | succeeded (image_url : Option String)
  | failedRemote
  | timedOut
deriving DecidableEq

/-- Mutable state of the image polling loop. -/
structure ImgPollState where
  attempts : Nat
  lastStatus : String
  timerActive : Bool
  outcome : Option ImgOutcome
  notifications : Nat
deriving DecidableEq

/-- `maxAttempts` of the image loop (image.ts line 113). -/
def imageMaxAttempts : Nat := 60

/-- Image loop state just after `setInterval` is registered
(image.ts lines 112-114). -/
def imageInit : ImgPollState :=
  { attempts := 0, lastStatus := "", timerActive := true
    outcome := none, notifications := 0 }

/-- One tick of the image polling loop (image.ts lines 116-256):
`attempts++`; a failed status check clears the interval and reports the
error (no transient tolerance); missing task data just returns; otherwise
the status edit fires when `currentStatus !== lastStatus || progress > 0`,
then `completed` / `failed` / `attempts >= maxAttempts` are checked in that
order, each clearing the interval. -/
def imageTick (s : ImgPollState) (c : GoapiCheck) : ImgPollState :=
  if s.timerActive = false then s
  else
    let s0 := { s with attempts := s.attempts + 1 }
    match c with
    | .failure =>
      { s0 with timerActive := false, outcome := some ImgOutcome.statusCheckError }
    | .nodata => s0
    | .status st progress url =>
      let s1 :=
        if st ≠ s0.lastStatus ∨ 0 < progress then
          { s0 with lastStatus := st, notifications := s0.notifications + 1 }
        else s0
      if st = "completed" then
        { s1 with timerActive := false, outcome := some (ImgOutcome.succeeded url) }
      else if st = "failed" then
        { s1 with timerActive := false, outcome := some ImgOutcome.failedRemote }
      else if imageMaxAttempts ≤ s1.attempts then
        { s1 with timerActive := false, outcome := some ImgOutcome.timedOut }
      else s1

/-- Image polling run over a list of status-check results. -/
def imageRun (cs : List GoapiCheck) : ImgPollState := cs.foldl imageTick imageInit

/-- Settled result of `getPredictionStatus` as the video loop inspects it:
`failure` is `st.success === false`; `success` carries `st.data?.status`
(`none` when missing) and the first output URL if any. -/
inductive ReplicateCheck
  | failure
  | success (status : Option String) (output : Option String)
deriving DecidableEq

/-- `st.data?.status || "processing"`: a missing or empty (falsy) status
string defaults to `"processing"` (video.ts line 80). -/
def statusOf (o : Option String) : String :=
  match o with
  | none => "processing"
  | some s => if s = "" then "processing" else s

/-- Terminal outcome delivered by the video loop. -/
inductive VidOutcome
  | statusCheckError
  | succeeded (output : Option String)
  | failedRemote
  | timedOut
deriving DecidableEq

/-- Mutable state of the video polling loop. -/
structure VidPollState where
  attempts : Nat
  lastStatus : String
  transientErrors : Nat
  timerActive : Bool
  outcome : Option VidOutcome
  notifications : Nat
deriving DecidableEq

/-- `maxAttempts` of the video loop (video.ts line 57). -/
def videoMaxAttempts : Nat := 180

/-- `maxTransientErrors` of the video loop (video.ts line 60). -/
def maxTransientErrors : Nat := 5

/-- Video loop state just after `setInterval` is registered
(video.ts lines 56-61). -/
def videoInit : VidPollState :=
  { attempts := 0, lastStatus := "", transientErrors := 0
    timerActive := true, outcome := none, notifications := 0 }

/-- One tick of the video polling loop (video.ts lines 61-143):
`attempts++` first; a failed status check increments `transientErrors` and
either fails at the threshold or skips the tick; a successful check resets
`transientErrors`, notifies when the status changed, then checks
`succeeded` / `failed` / `attempts >= maxAttempts` in that order. -/
def videoTick (s : VidPollState) (c : ReplicateCheck) : VidPollState :=
  if s.timerActive = false then s
  else
    let s0 := { s with attempts := s.attempts + 1 }
    match c with
    | .failure =>
      let s1 := { s0 with transientErrors := s0.transientErrors + 1 }
      if maxTransientErrors ≤ s1.transientErrors then
        { s1 with timerActive := false, outcome := some VidOutcome.statusCheckError }
      else s1
    | .success stOpt out =>
      let s1 := { s0 with transientErrors := 0 }
      let st := statusOf stOpt
      let s2 :=
        if st ≠ s1.lastStatus then
          { s1 with lastStatus := st, notifications := s1.notifications + 1 }
        else s1
      if st = "succeeded" then
        { s2 with timerActive := false, outcome := some (VidOutcome.succeeded out) }
      else if st = "failed" then
        { s2 with timerActive := false, outcome := some VidOutcome.failedRemote }
      else if videoMaxAttempts ≤ s2.attempts then
        { s2 with timerActive := false, outcome := some VidOutcome.timedOut }
      else s2

/-- Video polling run over a list of status-check results. -/
def videoRun (cs : List ReplicateCheck) : VidPollState := cs.foldl videoTick videoInit

/-- A status check that succeeded and reported an in-progress status
(image loop). -/
def imgInProgress (c : GoapiCheck) : Prop :=
  match c with
  | .status st _ _ => st ≠ "completed" ∧ st ≠ "failed"
  | _ => False

/-- A status check that succeeded and reported an in-progress status
(video loop). -/
def vidInProgress (c : ReplicateCheck) : Prop :=
  match c with
  | .success stOpt _ => statusOf stOpt ≠ "succeeded" ∧ statusOf stOpt ≠ "failed"
  | .failure => False

/-- After `clearInterval`, no further callback fires: a tick on an inactive
timer is the identity (image loop). -/
theorem imageTick_inactive (s : ImgPollState) (c : GoapiCheck)
    (h : s.timerActive = false) : imageTick s c = s := by
  unfold imageTick
  rw [if_pos h]

/-- A whole run on an inactive timer is the identity (image loop). -/
theorem imageRun_inactive (cs : List GoapiCheck) : ∀ s : ImgPollState,
    s.timerActive = false → cs.foldl imageTick s = s := by
  induction cs with
  | nil => intro s _; rfl
  | cons c cs ih =>
    intro s h
    show cs.foldl imageTick (imageTick s c) = s
    rw [imageTick_inactive s c h]
    exact ih s h

/-- An in-progress tick below the attempt budget keeps polling and
increments `attempts` (image loop). -/
theorem imageTick_inprogress (s : ImgPollState) (st : String) (progress : Int)
    (url : Option String) (h1 : st ≠ "completed") (h2 : st ≠ "failed")
    (ht : s.timerActive = true) (hb : s.attempts + 1 < imageMaxAttempts) :
    (imageTick s (GoapiCheck.status st progress url)).timerActive = true ∧
    (imageTick s (GoapiCheck.status st progress url)).outcome = s.outcome ∧
    (imageTick s (GoapiCheck.status st progress url)).attempts = s.attempts + 1 := by
  unfold imageTick
  rw [if_neg (by simp [ht])]
  simp only
  by_cases hn : st ≠ ({ s with attempts := s.attempts + 1 } : ImgPollState).lastStatus
      ∨ 0 < progress
  · rw [if_pos hn, if_neg h1, if_neg h2, if_neg (by simp; omega)]
    exact ⟨ht, rfl, rfl⟩
  · rw [if_neg hn, if_neg h1, if_neg h2, if_neg (by simp; omega)]
    exact ⟨ht, rfl, rfl⟩

/-- An in-progress tick at the attempt budget transitions to timeout and
cancels the timer (image loop). -/
theorem imageTick_timesout (s : ImgPollState) (st : String) (progress : Int)
    (url : Option String) (h1 : st ≠ "completed") (h2 : st ≠ "failed")
    (ht : s.timerActive = true) (hb : imageMaxAttempts ≤ s.attempts + 1) :
    (imageTick s (GoapiCheck.status st progress url)).timerActive = false ∧
    (imageTick s (GoapiCheck.status st progress url)).outcome
      = some ImgOutcome.timedOut := by
  unfold imageTick
  rw [if_neg (by simp [ht])]
  simp only
  by_cases hn : st ≠ ({ s with attempts := s.attempts + 1 } : ImgPollState).lastStatus
      ∨ 0 < progress
  · rw [if_pos hn, if_neg h1, if_neg h2, if_pos (by simpa using hb)]
    exact ⟨rfl, rfl⟩
  · rw [if_neg hn, if_neg h1, if_neg h2, if_pos (by simpa using hb)]
    exact ⟨rfl, rfl⟩

/-- Invariant: an all-in-progress run that stays below the attempt budget
keeps polling, with one attempt consumed per tick (image loop). -/
theorem imageRun_inprogress (cs : List GoapiCheck) : ∀ s : ImgPollState,
    (∀ c ∈ cs, imgInProgress c) → s.timerActive = true → s.outcome = none →
    s.attempts + cs.length < imageMaxAttempts →
    (cs.foldl imageTick s).timerActive = true ∧
    (cs.foldl imageTick s).outcome = none ∧
    (cs.foldl imageTick s).attempts = s.attempts + cs.length := by
  induction cs with
  | nil => intro s _ ht ho _; exact ⟨ht, ho, by simp⟩
  | cons c cs ih =>
    intro s hall ht ho hb
    cases c with
    | failure => exact absurd (hall _ (List.mem_cons_self _ _)) (fun h => h)
    | nodata => exact absurd (hall _ (List.mem_cons_self _ _)) (fun h => h)
    | status st progress url =>
      have hc := hall _ (List.mem_cons_self _ _)
      have h1 : st ≠ "completed" := hc.1
      have h2 : st ≠ "failed" := hc.2
      have hlen : s.attempts + 1 < imageMaxAttempts := by
        simp only [List.length_cons] at hb
        omega
      have hstep := imageTick_inprogress s st progress url h1 h2 ht hlen
      show (cs.foldl imageTick (imageTick s (GoapiCheck.status st progress url))).timerActive
          = true ∧ _ ∧ _
      have := ih (imageTick s (GoapiCheck.status st progress url))
        (fun c hc2 => hall c (List.mem_cons_of_mem _ hc2))
        hstep.1 (hstep.2.1.trans ho) (by
          rw [hstep.2.2]
          simp only [List.length_cons] at hb
          omega)
      refine ⟨this.1, this.2.1, ?_⟩
      show (cs.foldl imageTick (imageTick s (GoapiCheck.status st progress url))).attempts
          = s.attempts + (GoapiCheck.status st progress url :: cs).length
      rw [this.2.2, hstep.2.2]
      simp only [List.length_cons]
      omega

/-- Analogue of `imageTick_inactive` for the video loop. -/
theorem videoTick_inactive (s : VidPollState) (c : ReplicateCheck)
    (h : s.timerActive = false) : videoTick s c = s := by
  unfold videoTick
  rw [if_pos h]

/-- An in-progress tick below the attempt budget keeps polling and
increments `attempts` (video loop). -/
theorem videoTick_inprogress (s : VidPollState) (stOpt out : Option String)
    (h1 : statusOf stOpt ≠ "succeeded") (h2 : statusOf stOpt ≠ "failed")
    (ht : s.timerActive = true) (hb : s.attempts + 1 < videoMaxAttempts) :
    (videoTick s (ReplicateCheck.success stOpt out)).timerActive = true ∧
    (videoTick s (ReplicateCheck.success stOpt out)).outcome = s.outcome ∧
    (videoTick s (ReplicateCheck.success stOpt out)).attempts = s.attempts + 1 := by
  unfold videoTick
  rw [if_neg (by simp [ht])]
  simp only
  by_cases hn : statusOf stOpt ≠
      ({ s with attempts := s.attempts + 1, transientErrors := 0 } : VidPollState).lastStatus
  · rw [if_pos hn, if_neg h1, if_neg h2, if_neg (by simp; omega)]
    exact ⟨ht, rfl, rfl⟩
  · rw [if_neg hn, if_neg h1, if_neg h2, if_neg (by simp; omega)]
    exact ⟨ht, rfl, rfl⟩

/-- An in-progress tick at the attempt budget transitions to timeout and
cancels the timer (video loop). -/
theorem videoTick_timesout (s : VidPollState) (stOpt out : Option String)
    (h1 : statusOf stOpt ≠ "succeeded") (h2 : statusOf stOpt ≠ "failed")
    (ht : s.timerActive = true) (hb : videoMaxAttempts ≤ s.attempts + 1) :
    (videoTick s (ReplicateCheck.success stOpt out)).timerActive = false ∧
    (videoTick s (ReplicateCheck.success stOpt out)).outcome
      = some VidOutcome.timedOut := by
  unfold videoTick
  rw [if_neg (by simp [ht])]
  simp only
  by_cases hn : statusOf stOpt ≠
      ({ s with attempts := s.attempts + 1, transientErrors := 0 } : VidPollState).lastStatus
  · rw [if_pos hn, if_neg h1, if_neg h2, if_pos (by simpa using hb)]
    exact ⟨rfl, rfl⟩
  · rw [if_neg hn, if_neg h1, if_neg h2, if_pos (by simpa using hb)]
    exact ⟨rfl, rfl⟩

/-- Invariant: an all-in-progress run that stays below the attempt budget
keeps polling, with one attempt consumed per tick (video loop). -/
theorem videoRun_inprogress (cs : List ReplicateCheck) : ∀ s : VidPollState,
    (∀ c ∈ cs, vidInProgress c) → s.timerActive = true → s.outcome = none →
    s.attempts + cs.length < videoMaxAttempts →
    (cs.foldl videoTick s).timerActive = true ∧
    (cs.foldl videoTick s).outcome = none ∧
    (cs.foldl videoTick s).attempts = s.attempts + cs.length := by
  induction cs with
  | nil => intro s _ ht ho _; exact ⟨ht, ho, by simp⟩
  | cons c cs ih =>
    intro s hall ht ho hb
    cases c with
    | failure => exact absurd (hall _ (List.mem_cons_self _ _)) (fun h => h)
    | success stOpt out =>
      have hc := hall _ (List.mem_cons_self _ _)
      have hlen : s.attempts + 1 < videoMaxAttempts := by
        simp only [List.length_cons] at hb
        omega
      have hstep := videoTick_inprogress s stOpt out hc.1 hc.2 ht hlen
      show (cs.foldl videoTick (videoTick s (ReplicateCheck.success stOpt out))).timerActive
          = true ∧ _ ∧ _
      have := ih (videoTick s (ReplicateCheck.success stOpt out))
        (fun c hc2 => hall c (List.mem_cons_of_mem _ hc2))
        hstep.1 (hstep.2.1.trans ho) (by
          rw [hstep.2.2]
          simp only [List.length_cons] at hb
          omega)
      refine ⟨this.1, this.2.1, ?_⟩
      show (cs.foldl videoTick (videoTick s (ReplicateCheck.success stOpt out))).attempts
          = s.attempts + (ReplicateCheck.success stOpt out :: cs).length
      rw [this.2.2, hstep.2.2]
      simp only [List.length_cons]
      omega

/-- **C3.** For every polling run in which every status check succeeds and
reports an in-progress status, each loop transitions to TimedOut after
exactly `maxAttempts` ticks (60 for the goapi image loop, 180 for the video
loop): strictly fewer ticks leave it polling with no terminal outcome, the
`maxAttempts`-th tick delivers TimedOut and cancels the timer, and once
cancelled, further ticks change nothing. -/
theorem poller_timeout_exact (ics : List GoapiCheck) (vcs : List ReplicateCheck)
    (hI : ∀ c ∈ ics, imgInProgress c) (hV : ∀ c ∈ vcs, vidInProgress c) :
    (ics.length < imageMaxAttempts →
      (imageRun ics).outcome = none ∧ (imageRun ics).timerActive = true) ∧
    (ics.length = imageMaxAttempts →
      (imageRun ics).outcome = some ImgOutcome.timedOut ∧
      (imageRun ics).timerActive = false ∧
      ∀ extra : List GoapiCheck, imageRun (ics ++ extra) = imageRun ics) ∧
    (vcs.length < videoMaxAttempts →
      (videoRun vcs).outcome = none ∧ (videoRun vcs).timerActive = true) ∧
    (vcs.length = videoMaxAttempts →
      (videoRun vcs).outcome = some VidOutcome.timedOut ∧
      (videoRun vcs).timerActive = false ∧
      ∀ extra : List ReplicateCheck, videoRun (vcs ++ extra) = videoRun vcs) := by
  refine ⟨?_, ?_, ?_, ?_⟩
  · intro hlen
    have h := imageRun_inprogress ics imageInit hI rfl rfl (by simpa [imageInit] using hlen)
    exact ⟨h.2.1, h.1⟩
  · intro hlen
    rcases List.eq_nil_or_concat ics with hnil | ⟨L, c, hcat⟩
    · rw [hnil] at hlen
      simp [imageMaxAttempts] at hlen
    · rw [List.concat_eq_append] at hcat
      subst hcat
      have hLlen : L.length + 1 = imageMaxAttempts := by
        simpa using hlen
      have hL := imageRun_inprogress L imageInit
        (fun x hx => hI x (List.mem_append_left _ hx)) rfl rfl
        (by simp only [imageInit]; omega)
      have hcin := hI c (List.mem_append_right _ (List.mem_cons_self _ _))
      cases c with
      | failure => exact absurd hcin (fun h => h)
      | nodata => exact absurd hcin (fun h => h)
      | status st progress url =>
        have hrun : imageRun (L ++ [GoapiCheck.status st progress url])
            = imageTick (imageRun L) (GoapiCheck.status st progress url) := by
          unfold imageRun
          rw [List.foldl_append]
          rfl
        have hfin := imageTick_timesout (imageRun L) st progress url hcin.1 hcin.2
          hL.1 (by rw [show (imageRun L).attempts = L.length from by
            simpa [imageInit] using hL.2.2]; omega)
        refine ⟨by rw [hrun]; exact hfin.2, by rw [hrun]; exact hfin.1, ?_⟩
        intro extra
        unfold imageRun
        rw [show (L ++ [GoapiCheck.status st progress url]) ++ extra
            = L ++ [GoapiCheck.status st progress url] ++ extra from by simp,
          List.foldl_append]
        exact imageRun_inactive extra _ (by rw [← hrun] at hfin; exact hfin.1)
  · intro hlen
    have h := videoRun_inprogress vcs videoInit hV rfl rfl (by simpa [videoInit] using hlen)
    exact ⟨h.2.1, h.1⟩
  · intro hlen
    rcases List.eq_nil_or_concat vcs with hnil | ⟨L, c, hcat⟩
    · rw [hnil] at hlen
      simp [videoMaxAttempts] at hlen
    · rw [List.concat_eq_append] at hcat
      subst hcat
      have hLlen : L.length + 1 = videoMaxAttempts := by
        simpa using hlen
      have hL := videoRun_inprogress L videoInit
        (fun x hx => hV x (List.mem_append_left _ hx)) rfl rfl
        (by simp only [videoInit]; omega)
      have hcin := hV c (List.mem_append_right _ (List.mem_cons_self _ _))
      cases c with
      | failure => exact absurd hcin (fun h => h)
      | success stOpt out =>
        have hrun : videoRun (L ++ [ReplicateCheck.success stOpt out])
            = videoTick (videoRun L) (ReplicateCheck.success stOpt out) := by
          unfold videoRun
          rw [List.foldl_append]
          rfl
        have hfin := videoTick_timesout (videoRun L) stOpt out hcin.1 hcin.2
          hL.1 (by rw [show (videoRun L).attempts = L.length from by
            simpa [videoInit] using hL.2.2]; omega)
        refine ⟨by rw [hrun]; exact hfin.2, by rw [hrun]; exact hfin.1, ?_⟩
        intro extra
        unfold videoRun
        rw [show (L ++ [ReplicateCheck.success stOpt out]) ++ extra
            = L ++ [ReplicateCheck.success stOpt out] ++ extra from by simp,
          List.foldl_append]
        have hid : ∀ s : VidPollState, s.timerActive = false →
            extra.foldl videoTick s = s := by
          induction extra with
          | nil => intro s _; rfl
          | cons e es ihe =>
            intro s hs
            show es.foldl videoTick (videoTick s e) = s
            rw [videoTick_inactive s e hs]
            exact ihe s hs
        exact hid _ (by rw [← hrun] at hfin; exact hfin.1)

theorem poller_timeout_exact_witness :
    (∀ c ∈ List.replicate 60 (GoapiCheck.status "processing" 0 none), imgInProgress c) ∧
    (∀ c ∈ List.replicate 180 (ReplicateCheck.success (some "processing") none),
      vidInProgress c) ∧
    (imageRun (List.replicate 60 (GoapiCheck.status "processing" 0 none))).outcome
      = some ImgOutcome.timedOut ∧
    (imageRun (List.replicate 60 (GoapiCheck.status "processing" 0 none))).timerActive
      = false ∧
    (videoRun (List.replicate 180 (ReplicateCheck.success (some "processing") none))).outcome
      = some VidOutcome.timedOut ∧
    (videoRun (List.replicate 180
      (ReplicateCheck.success (some "processing") none))).timerActive = false := by
  have hI : ∀ c ∈ List.replicate 60 (GoapiCheck.status "processing" 0 none),
      imgInProgress c := by
    intro c hc
    rw [List.eq_of_mem_replicate hc]
    exact ⟨by decide, by decide⟩
  have hV : ∀ c ∈ List.replicate 180 (ReplicateCheck.success (some "processing") none),
      vidInProgress c := by
    intro c hc
    rw [List.eq_of_mem_replicate hc]
    exact ⟨by decide, by decide⟩
  have h := poller_timeout_exact
    (List.replicate 60 (GoapiCheck.status "processing" 0 none))
    (List.replicate 180 (ReplicateCheck.success (some "processing") none)) hI hV
  have hi := h.2.1 (by simp [imageMaxAttempts])
  have hv := h.2.2.2 (by simp [videoMaxAttempts])
  exact ⟨hI, hV, hi.1, hi.2.1, hv.1, hv.2.1⟩

/-- **C4, counterexample.**  The claim asserts that for *every* polling run
a transiently failing status check only increments a separate counter,
that the poller fails only at the threshold of 5, that it otherwise skips
the tick, and that transient ticks consume no attempt.  The goapi image
loop refutes it: its very first failing status check (1 < 5 failures)
clears the interval and delivers the status-check error outcome.  The
video loop refutes the attempt-budget part: a single transient failure
leaves the poller polling but has already consumed one attempt. -/
theorem transient_failure_counterexample :
    (imageRun [GoapiCheck.failure]).outcome = some ImgOutcome.statusCheckError ∧
    (imageRun [GoapiCheck.failure]).timerActive = false ∧
    (imageRun [GoapiCheck.failure]).attempts = 1 ∧ 1 < maxTransientErrors ∧
    (videoRun [ReplicateCheck.failure]).outcome = none ∧
    (videoRun [ReplicateCheck.failure]).attempts = 1 := by
  decide

/-- **C4, amended.**  In the video loop a transiently failing status check
increments the separate `transientErrors` counter (reset to zero by every
successful check); the loop transitions to Failed exactly when that counter
reaches the threshold of 5 and otherwise skips the tick and continues
polling — but every tick, transient or not, consumes an attempt from the
main budget, because `attempts++` runs at the top of the callback.  The
goapi image loop has no transient tolerance at all: any failing status
check immediately cancels the timer and reports the failure. -/
theorem transient_failure_amended (v : VidPollState) (s : ImgPollState)
    (htv : v.timerActive = true) (hov : v.outcome = none)
    (hts : s.timerActive = true) :
    ((videoTick v ReplicateCheck.failure).attempts = v.attempts + 1 ∧
      (videoTick v ReplicateCheck.failure).transientErrors = v.transientErrors + 1 ∧
      (v.transientErrors + 1 < maxTransientErrors →
        (videoTick v ReplicateCheck.failure).outcome = none ∧
        (videoTick v ReplicateCheck.failure).timerActive = true) ∧
      (maxTransientErrors ≤ v.transientErrors + 1 →
        (videoTick v ReplicateCheck.failure).outcome = some VidOutcome.statusCheckError ∧
        (videoTick v ReplicateCheck.failure).timerActive = false)) ∧
    (∀ stOpt out : Option String,
      (videoTick v (ReplicateCheck.success stOpt out)).transientErrors = 0) ∧
    ((imageTick s GoapiCheck.failure).outcome = some ImgOutcome.statusCheckError ∧
      (imageTick s GoapiCheck.failure).timerActive = false ∧
      (imageTick s GoapiCheck.failure).attempts = s.attempts + 1) := by
  refine ⟨⟨?_, ?_, ?_, ?_⟩, ?_, ?_, ?_, ?_⟩
  · unfold videoTick
    rw [if_neg (by simp [htv])]
    simp only
    by_cases hc : maxTransientErrors ≤ v.transientErrors + 1
    · rw [if_pos hc]
    · rw [if_neg hc]
  · unfold videoTick
    rw [if_neg (by simp [htv])]
    simp only
    by_cases hc : maxTransientErrors ≤ v.transientErrors + 1
    · rw [if_pos hc]
    · rw [if_neg hc]
  · intro hlt
    unfold videoTick
    rw [if_neg (by simp [htv])]
    simp only
    rw [if_neg (by omega)]
    exact ⟨hov, htv⟩
  · intro hge
    unfold videoTick
    rw [if_neg (by simp [htv])]
    simp only
    rw [if_pos (by omega)]
    exact ⟨rfl, rfl⟩
  · intro stOpt out
    unfold videoTick
    rw [if_neg (by simp [htv])]
    simp only
    by_cases hn : statusOf stOpt ≠
        ({ v with attempts := v.attempts + 1, transientErrors := 0 } : VidPollState).lastStatus
    · rw [if_pos hn]
      by_cases h1 : statusOf stOpt = "succeeded"
      · rw [if_pos h1]
      · rw [if_neg h1]
        by_cases h2 : statusOf stOpt = "failed"
        · rw [if_pos h2]
        · rw [if_neg h2]
          by_cases h3 : videoMaxAttempts ≤ v.attempts + 1
          · rw [if_pos h3]
          · rw [if_neg h3]
    · rw [if_neg hn]
      by_cases h1 : statusOf stOpt = "succeeded"
      · rw [if_pos h1]
      · rw [if_neg h1]
        by_cases h2 : statusOf stOpt = "failed"
        · rw [if_pos h2]
        · rw [if_neg h2]
          by_cases h3 : videoMaxAttempts ≤ v.attempts + 1
          · rw [if_pos h3]
          · rw [if_neg h3]
  · unfold imageTick
    rw [if_neg (by simp [hts])]
  · unfold imageTick
    rw [if_neg (by simp [hts])]
  · unfold imageTick
    rw [if_neg (by simp [hts])]

theorem transient_failure_amended_witness :
    videoInit.timerActive = true ∧ videoInit.outcome = none ∧
    imageInit.timerActive = true ∧
    (((videoTick videoInit ReplicateCheck.failure).attempts = videoInit.attempts + 1 ∧
      (videoTick videoInit ReplicateCheck.failure).transientErrors
        = videoInit.transientErrors + 1 ∧
      (videoInit.transientErrors + 1 < maxTransientErrors →
        (videoTick videoInit ReplicateCheck.failure).outcome = none ∧
        (videoTick videoInit ReplicateCheck.failure).timerActive = true) ∧
      (maxTransientErrors ≤ videoInit.transientErrors + 1 →
        (videoTick videoInit ReplicateCheck.failure).outcome
          = some VidOutcome.statusCheckError ∧
        (videoTick videoInit ReplicateCheck.failure).timerActive = false)) ∧
    (∀ stOpt out : Option String,
      (videoTick videoInit (ReplicateCheck.success stOpt out)).transientErrors = 0) ∧
    ((imageTick imageInit GoapiCheck.failure).outcome
        = some ImgOutcome.statusCheckError ∧
      (imageTick imageInit GoapiCheck.failure).timerActive = false ∧
      (imageTick imageInit GoapiCheck.failure).attempts = imageInit.attempts + 1)) := by
  refine ⟨rfl, rfl, rfl, ?_⟩
  exact transient_failure_amended videoInit imageInit rfl rfl rfl

/-- **C9, counterexample.**  The claim asserts an intermediate notification
is emitted only when the observed status/progress changed since the last
tick — at most once per distinct status value.  In the image loop the edit
condition is `currentStatus !== lastStatus || progress > 0`, so two
consecutive ticks reporting the identical status `"processing"` and the
identical positive progress 50 emit two notifications, not one. -/
theorem notification_repeat_counterexample :
    (imageRun [GoapiCheck.status "processing" 50 none,
      GoapiCheck.status "processing" 50 none]).notifications = 2 ∧
    ¬ (imageRun [GoapiCheck.status "processing" 50 none,
      GoapiCheck.status "processing" 50 none]).notifications ≤ 1 := by
  decide

/-- **C9, amended.**  On a tick with the timer active, the video loop
notifies exactly when the status differs from the previous tick's (at most
once per consecutive run of equal statuses), while the image loop notifies
whenever the status changed OR the reported progress is positive, so
unchanged positive progress re-notifies on every tick. -/
theorem notification_condition_amended (s : ImgPollState) (v : VidPollState)
    (st : String) (progress : Int) (url : Option String)
    (stOpt out : Option String)
    (hts : s.timerActive = true) (htv : v.timerActive = true) :
    ((st ≠ s.lastStatus ∨ 0 < progress) →
      (imageTick s (GoapiCheck.status st progress url)).notifications
        = s.notifications + 1) ∧
    ((st = s.lastStatus ∧ progress ≤ 0) →
      (imageTick s (GoapiCheck.status st progress url)).notifications
        = s.notifications) ∧
    (statusOf stOpt ≠ v.lastStatus →
      (videoTick v (ReplicateCheck.success stOpt out)).notifications
        = v.notifications + 1) ∧
    (statusOf stOpt = v.lastStatus →
      (videoTick v (ReplicateCheck.success stOpt out)).notifications
        = v.notifications) := by
  refine ⟨?_, ?_, ?_, ?_⟩
  · intro hn
    unfold imageTick
    rw [if_neg (by simp [hts])]
    simp only
    (repeat' split) <;> (try simp_all) <;> omega
  · intro hn
    unfold imageTick
    rw [if_neg (by simp [hts])]
    simp only
    (repeat' split) <;> (try simp_all) <;> omega
  · intro hn
    unfold videoTick
    rw [if_neg (by simp [htv])]
    simp only
    (repeat' split) <;> (try simp_all) <;> omega
  · intro hn
    unfold videoTick
    rw [if_neg (by simp [htv])]
    simp only
    (repeat' split) <;> (try simp_all) <;> omega

theorem notification_condition_amended_witness :
    imageInit.timerActive = true ∧ videoInit.timerActive = true ∧
    ("processing" ≠ imageInit.lastStatus ∨ (0:Int) < 50) ∧
    statusOf (some "processing") ≠ videoInit.lastStatus ∧
    (imageTick imageInit (GoapiCheck.status "processing" 50 none)).notifications
      = imageInit.notifications + 1 ∧
    (videoTick videoInit (ReplicateCheck.success (some "processing") none)).notifications
      = videoInit.notifications + 1 := by
  have h := notification_condition_amended imageInit videoInit "processing" 50 none
    (some "processing") none rfl rfl
  refine ⟨rfl, rfl, Or.inr (by decide), by decide, ?_, ?_⟩
  · exact h.1 (Or.inr (by decide))
  · exact h.2.2.1 (by decide)

/-!
## `ongoingTasks` busy-flag lifecycle of `handlePhotoGeneration`
(image.ts lines 66-72, 83, 116, 265-267)

The goapi branch guards per-user single flight with the in-memory map
`ongoingTasks`: line 66 declines a request when `ongoingTasks.has(userId)`,
line 83 sets the flag, and the `finally` block at lines 265-267 deletes it.
The polling runs inside `setInterval`, which only registers the callback
and returns immediately; the enclosing async function then falls off the
end of its `try` block and executes the `finally` — before the first
interval callback can fire at t = 10 s.  The model records the run as the
resulting totally-ordered event list and computes the flag state after any
number of elapsed poll ticks.
-/

/-- Busy-flag-relevant events of one goapi image-generation run. -/
inductive ImgFlowEvent
  | setBusyFlag
  | submitResolved
  | timerRegistered
  | deleteBusyFlag
  | pollTick (k : Nat)
deriving DecidableEq

/-- Effect of one event on `ongoingTasks.has(userId)`. -/
def busyStep (b : Bool) (e : ImgFlowEvent) : Bool :=
  match e with
  | ImgFlowEvent.setBusyFlag => true
  | ImgFlowEvent.deleteBusyFlag => false
  | _ => b

/-- `ongoingTasks.has(userId)` after a list of events (initially absent). -/
def busyAfter (events : List ImgFlowEvent) : Bool :=
  events.foldl busyStep false

/-- Event order of a goapi run whose submission succeeded, observed after
`ticks` interval callbacks have fired: `ongoingTasks.set` (line 83), the
awaited `generateImage` resolving, `setInterval` registration (line 116),
then — still before the first callback — the `finally` deletion
(lines 265-267), followed by the elapsed poll ticks. -/
def handlePhotoGenerationEvents (ticks : Nat) : List ImgFlowEvent :=
  [ImgFlowEvent.setBusyFlag, ImgFlowEvent.submitResolved,
    ImgFlowEvent.timerRegistered, ImgFlowEvent.deleteBusyFlag]
    ++ (List.range ticks).map ImgFlowEvent.pollTick

/-- The admission check for a second request by the same user
(image.ts lines 66-72): it is declined with the "please wait" message
exactly when `ongoingTasks.has(userId)` is true. -/
def secondRequestDeclined (busy : Bool) : Bool := busy

/-- Poll ticks do not touch the busy flag. -/
theorem busyStep_pollTicks (l : List Nat) : ∀ b : Bool,
    (l.map ImgFlowEvent.pollTick).foldl busyStep b = b := by
  induction l with
  | nil => intro b; rfl
  | cons x xs ih =>
    intro b
    show (xs.map ImgFlowEvent.pollTick).foldl busyStep
      (busyStep b (ImgFlowEvent.pollTick x)) = b
    exact ih b

/-- **C1, refuted (code bug).**  In every goapi image run with a successful
submission, the `finally` block has already deleted the user's
`ongoingTasks` entry before the first poll tick fires, so at every point of
the polling phase (after any number of elapsed ticks — in particular while
the task has reached no terminal state) the busy flag is false and a second
request by the same user is NOT declined.  The claim that the flag remains
set until the task reaches Succeeded/Failed/TimedOut is therefore false on
the code. -/
theorem busy_flag_cleared_before_polling (ticks : Nat) :
    busyAfter (handlePhotoGenerationEvents ticks) = false ∧
    secondRequestDeclined (busyAfter (handlePhotoGenerationEvents ticks)) = false := by
  have h : busyAfter (handlePhotoGenerationEvents ticks) = false := by
    unfold handlePhotoGenerationEvents busyAfter
    rw [List.foldl_append]
    exact busyStep_pollTicks (List.range ticks) _
  exact ⟨h, by rw [h]; rfl⟩
